import Mathlib

/-
  Shallow embedding of the gameplay core of src/src/App.tsx
  (neon-orb-catcher): entity generation, the per-frame collision
  evaluator, and the score/lives/level state machine.

  Modelling conventions:
  * JS numbers are modelled as exact rationals (ℚ); `Math.random()`
    is modelled as an ambient stream `ρ : ℕ → ℚ` of draws in [0, 1),
    consumed sequentially via an index threaded through the state
    (field `rng`).
  * `Date.now()` is an explicit `now : ℕ` argument to each operation.
  * `pos.distanceTo(q) < r` is modelled as `distSq pos q < r ^ 2`,
    which is equivalent for nonnegative `r`.
  * React functional state updaters are modelled by pure functions on
    an explicit `GameState`; within one animation frame all collision
    callbacks close over the same rendered `score` (the frame-start
    score), which is passed to `handleHit` as `capturedScore`,
    mirroring the `[score]` dependency of the `handleHit` callback.
-/

namespace App

/-- 3D point over ℚ, modelling the THREE.Vector3 positions that the
game logic stores and compares. -/
structure Vec3 where
  x : ℚ
  y : ℚ
  z : ℚ
deriving DecidableEq

/-- Squared Euclidean distance. `a.distanceTo b < r` in the source is
modelled as `distSq a b < r ^ 2`. -/
def distSq (p q : Vec3) : ℚ :=
  (p.x - q.x) ^ 2 + (p.y - q.y) ^ 2 + (p.z - q.z) ^ 2

/-- Orb record (interface Orb in App.tsx). -/
structure Orb where
  id : ℕ
  position : Vec3
  color : String
  points : ℕ
deriving DecidableEq

/-- Obstacle record (interface Obstacle in App.tsx). -/
structure Obstacle where
  id : ℕ
  position : Vec3
  speed : ℚ
deriving DecidableEq

/-- The fixed orb palette from generateOrbs. -/
def colors : List String := ["#00ffff", "#ff00ff", "#ffff00", "#00ff00", "#ff6600"]

/-- JS out-of-range array access yields undefined; the color draw can
never be out of range for valid draws, so the default is irrelevant. -/
def fallbackColor : String := ""

/-- randomPosition(range): each coordinate is (Math.random() - 0.5) * range. -/
def randomPosition (range r1 r2 r3 : ℚ) : Vec3 :=
  ⟨(r1 - 1/2) * range, (r2 - 1/2) * range, (r3 - 1/2) * range⟩

/-- One orb produced by generateOrbs: id = Date.now() + i, position
randomPosition(15), color from the palette, points = floor(rand*50)+10.
`k` is the index of the first random draw consumed by this orb. -/
def mkOrb (now : ℕ) (ρ : ℕ → ℚ) (k i : ℕ) : Orb :=
  { id := now + i
    position := randomPosition 15 (ρ k) (ρ (k+1)) (ρ (k+2))
    color := colors.getD (Int.toNat ⌊ρ (k+3) * 5⌋) fallbackColor
    points := Int.toNat ⌊ρ (k+4) * 50⌋ + 10 }

/-- generateOrbs(count): orbs with ids now + 0, …, now + (count-1); each
orb consumes 5 random draws (x, y, z, color, points) in source order. -/
def generateOrbs (now : ℕ) (ρ : ℕ → ℚ) (k count : ℕ) : List Orb :=
  (List.range count).map (fun i => mkOrb now ρ (k + 5 * i) i)

/-- One obstacle produced by generateObstacles: id = Date.now() + i + 1000,
x in (-6,6), y in (-4,4), z = -10 - rand*20, speed = 1 + rand*2. -/
def mkObstacle (now : ℕ) (ρ : ℕ → ℚ) (k i : ℕ) : Obstacle :=
  { id := now + i + 1000
    position := ⟨(ρ k - 1/2) * 12, (ρ (k+1) - 1/2) * 8, -10 - ρ (k+2) * 20⟩
    speed := 1 + ρ (k+3) * 2 }

/-- generateObstacles(count): each obstacle consumes 4 random draws. -/
def generateObstacles (now : ℕ) (ρ : ℕ → ℚ) (k count : ℕ) : List Obstacle :=
  (List.range count).map (fun i => mkObstacle now ρ (k + 4 * i) i)

/-- A random stream is valid when every draw lies in [0, 1), the range
of Math.random(). -/
def ValidStream (ρ : ℕ → ℚ) : Prop := ∀ i, 0 ≤ ρ i ∧ ρ i < 1

/-- The all-halves stream, used to instantiate witnesses. -/
def halfStream : ℕ → ℚ := fun _ => 1/2

theorem halfStream_valid : ValidStream halfStream := by
  intro i
  constructor <;> norm_num [halfStream]

theorem mem_generateOrbs {now k count : ℕ} {ρ : ℕ → ℚ} {o : Orb} :
    o ∈ generateOrbs now ρ k count ↔ ∃ i < count, o = mkOrb now ρ (k + 5 * i) i := by
  simp only [generateOrbs, List.mem_map, List.mem_range]
  constructor
  · rintro ⟨i, hi, rfl⟩; exact ⟨i, hi, rfl⟩
  · rintro ⟨i, hi, rfl⟩; exact ⟨i, hi, rfl⟩

theorem mem_generateObstacles {now k count : ℕ} {ρ : ℕ → ℚ} {b : Obstacle} :
    b ∈ generateObstacles now ρ k count ↔ ∃ i < count, b = mkObstacle now ρ (k + 4 * i) i := by
  simp only [generateObstacles, List.mem_map, List.mem_range]
  constructor
  · rintro ⟨i, hi, rfl⟩; exact ⟨i, hi, rfl⟩
  · rintro ⟨i, hi, rfl⟩; exact ⟨i, hi, rfl⟩

theorem generateOrbs_length (now : ℕ) (ρ : ℕ → ℚ) (k count : ℕ) :
    (generateOrbs now ρ k count).length = count := by
  simp [generateOrbs]

theorem generateObstacles_length (now : ℕ) (ρ : ℕ → ℚ) (k count : ℕ) :
    (generateObstacles now ρ k count).length = count := by
  simp [generateObstacles]

/-- Each coordinate of randomPosition 15 with valid draws lies in [-15/2, 15/2). -/
theorem coord_bound {r : ℚ} (h0 : 0 ≤ r) (h1 : r < 1) :
    -(15/2) ≤ (r - 1/2) * 15 ∧ (r - 1/2) * 15 < 15/2 := by
  constructor <;> nlinarith

/-- Point values of generated orbs lie in [10, 59]. -/
theorem mkOrb_points_bounds {ρ : ℕ → ℚ} (hρ : ValidStream ρ) (now k i : ℕ) :
    10 ≤ (mkOrb now ρ k i).points ∧ (mkOrb now ρ k i).points ≤ 59 := by
  obtain ⟨h0, h1⟩ := hρ (k + 4)
  have hm0 : (0:ℚ) ≤ ρ (k+4) * 50 := by nlinarith
  have hm1 : ρ (k+4) * 50 < 50 := by nlinarith
  have hf1 : ⌊ρ (k+4) * 50⌋ < (50:ℤ) := Int.floor_lt.mpr (by exact_mod_cast hm1)
  have htn : (⌊ρ (k+4) * 50⌋).toNat ≤ 49 := Int.toNat_le.mpr (by omega)
  refine ⟨?_, ?_⟩
  · simp [mkOrb]
  · simp only [mkOrb]
    omega

/-- z-coordinate bounds for a generated orb. -/
theorem mkOrb_z_bounds {ρ : ℕ → ℚ} (hρ : ValidStream ρ) (now k i : ℕ) :
    -(15/2) ≤ (mkOrb now ρ k i).position.z ∧ (mkOrb now ρ k i).position.z < 15/2 := by
  obtain ⟨h0, h1⟩ := hρ (k + 2)
  simpa [mkOrb, randomPosition] using coord_bound h0 h1

/-- z-coordinate bound for a generated obstacle: z ≤ -10. -/
theorem mkObstacle_z_bound {ρ : ℕ → ℚ} (hρ : ValidStream ρ) (now k i : ℕ) :
    (mkObstacle now ρ k i).position.z ≤ -10 := by
  obtain ⟨h0, h1⟩ := hρ (k + 2)
  simp only [mkObstacle]
  nlinarith

/-- C9: every orb returned by generateOrbs has each of its three
position coordinates in [-7.5, 7.5] and an integer point value in
[10, 59]. -/
theorem C9_generated_orb_bounds :
    ∀ (now : ℕ) (ρ : ℕ → ℚ) (k count : ℕ), ValidStream ρ →
    ∀ o ∈ generateOrbs now ρ k count,
      (-(15/2) ≤ o.position.x ∧ o.position.x ≤ 15/2) ∧
      (-(15/2) ≤ o.position.y ∧ o.position.y ≤ 15/2) ∧
      (-(15/2) ≤ o.position.z ∧ o.position.z ≤ 15/2) ∧
      (10 ≤ o.points ∧ o.points ≤ 59) := by
  intro now ρ k count hρ o ho
  obtain ⟨i, _, rfl⟩ := mem_generateOrbs.mp ho
  obtain ⟨hx0, hx1⟩ := hρ (k + 5 * i)
  obtain ⟨hy0, hy1⟩ := hρ (k + 5 * i + 1)
  obtain ⟨hz0, hz1⟩ := hρ (k + 5 * i + 2)
  refine ⟨?_, ?_, ?_, mkOrb_points_bounds hρ now (k + 5 * i) i⟩
  · have := coord_bound hx0 hx1
    constructor
    · simpa [mkOrb, randomPosition] using this.1
    · have h2 := this.2
      simp only [mkOrb, randomPosition]
      linarith
  · have := coord_bound hy0 hy1
    constructor
    · simpa [mkOrb, randomPosition] using this.1
    · have h2 := this.2
      simp only [mkOrb, randomPosition]
      linarith
  · have := coord_bound hz0 hz1
    constructor
    · simpa [mkOrb, randomPosition] using this.1
    · have h2 := this.2
      simp only [mkOrb, randomPosition]
      linarith

/-- Witness for C9 at a concrete call: generateOrbs 0 halfStream 0 1. -/
theorem C9_generated_orb_bounds_witness :
    (-(15/2) ≤ (mkOrb 0 halfStream 0 0).position.x ∧ (mkOrb 0 halfStream 0 0).position.x ≤ 15/2) ∧
    (-(15/2) ≤ (mkOrb 0 halfStream 0 0).position.y ∧ (mkOrb 0 halfStream 0 0).position.y ≤ 15/2) ∧
    (-(15/2) ≤ (mkOrb 0 halfStream 0 0).position.z ∧ (mkOrb 0 halfStream 0 0).position.z ≤ 15/2) ∧
    (10 ≤ (mkOrb 0 halfStream 0 0).points ∧ (mkOrb 0 halfStream 0 0).points ≤ 59) :=
  C9_generated_orb_bounds 0 halfStream 0 1 halfStream_valid
    (mkOrb 0 halfStream 0 0) (by simp [generateOrbs])

/-- The three screen states of the App component. -/
inductive Phase where
  | title
  | playing
  | gameover
deriving DecidableEq

/-- The React state of the App component plus the GameScene refs.
`collectedIds` is the GameScene collectedIds ref; `pending` records
the due times of setTimeout replenishments scheduled by handleCollect;
`rng` is the index of the next Math.random() draw in the ambient
stream. -/
structure GameState where
  phase : Phase
  score : ℕ
  highScore : ℕ
  orbs : List Orb
  obstacles : List Obstacle
  lives : ℤ
  level : ℕ
  collectedIds : Finset ℕ
  pending : List ℕ
  rng : ℕ
deriving DecidableEq

/-- Initial useState values: title screen, score 0, high score 0, no
entities, 3 lives, level 1, nothing collected, no pending timers. -/
def initialState : GameState :=
  { phase := .title
    score := 0
    highScore := 0
    orbs := []
    obstacles := []
    lives := 3
    level := 1
    collectedIds := ∅
    pending := []
    rng := 0 }

/-- startGame: set playing, reset score/lives/level, replace the live
sets with 10 fresh orbs and 5 fresh obstacles. Consumes 50 + 20 draws. -/
def startGame (now : ℕ) (ρ : ℕ → ℚ) (s : GameState) : GameState :=
  { s with
    phase := .playing
    score := 0
    lives := 3
    level := 1
    orbs := generateOrbs now ρ s.rng 10
    obstacles := generateObstacles now ρ (s.rng + 50) 5
    rng := s.rng + 70 }

/-- handleCollect(id, points): add points to score; if the score
crosses a 200-point floor boundary, increment level and append 3 fresh
orbs and 2 fresh obstacles; remove the collected orb from the live
set; schedule a 500ms replenishment. -/
def handleCollect (now : ℕ) (ρ : ℕ → ℚ) (id points : ℕ) (s : GameState) : GameState :=
  let newScore := s.score + points
  let levelUp := newScore / 200 > s.score / 200
  { s with
    score := newScore
    level := if levelUp then s.level + 1 else s.level
    orbs := s.orbs.filter (fun o => decide (o.id ≠ id)) ++
      (if levelUp then generateOrbs now ρ s.rng 3 else [])
    obstacles := s.obstacles ++
      (if levelUp then generateObstacles now ρ (s.rng + 15) 2 else [])
    pending := s.pending ++ [now + 500]
    rng := if levelUp then s.rng + 25 else s.rng }

/-- handleHit: decrement lives (no floor); when the new value is ≤ 0,
switch to gameover and raise the high score to the score captured by
the callback's closure (the score at the last render). -/
def handleHit (capturedScore : ℕ) (s : GameState) : GameState :=
  let newLives := s.lives - 1
  if newLives ≤ 0 then
    { s with
      lives := newLives
      phase := .gameover
      highScore := max s.highScore capturedScore }
  else
    { s with lives := newLives }

/-- The body of the 500ms setTimeout scheduled by handleCollect:
append one freshly generated orb to whatever the live set then is,
with no phase check. -/
def fireReplenishment (now : ℕ) (ρ : ℕ → ℚ) (s : GameState) : GameState :=
  { s with
    orbs := s.orbs ++ generateOrbs now ρ s.rng 1
    rng := s.rng + 5 }

/-- C6: startGame, invocable from any phase (the button exists on both
the title and the game-over screens), yields phase playing, score 0,
lives 3, level 1, and live sets consisting of exactly the 10 freshly
generated orbs and 5 freshly generated obstacles, replacing any prior
sets. -/
theorem C6_startGame_resets :
    ∀ (now : ℕ) (ρ : ℕ → ℚ) (s : GameState),
      (startGame now ρ s).phase = Phase.playing ∧
      (startGame now ρ s).score = 0 ∧
      (startGame now ρ s).lives = 3 ∧
      (startGame now ρ s).level = 1 ∧
      (startGame now ρ s).orbs = generateOrbs now ρ s.rng 10 ∧
      (startGame now ρ s).orbs.length = 10 ∧
      (startGame now ρ s).obstacles = generateObstacles now ρ (s.rng + 50) 5 ∧
      (startGame now ρ s).obstacles.length = 5 := by
  intro now ρ s
  refine ⟨rfl, rfl, rfl, rfl, rfl, ?_, rfl, ?_⟩
  · simp [startGame, generateOrbs_length]
  · simp [startGame, generateObstacles_length]

/-- C4: a Collect(id, points) event adds points to the score; exactly
when the floor of score/200 increases, the level rises by exactly 1 and
exactly 3 orbs and 2 obstacles are appended to the live sets (which
otherwise change only by the collected orb's removal); at most one
level-up happens per Collect event however many 200-point boundaries
are crossed. -/
theorem C4_collect_scoring :
    ∀ (now : ℕ) (ρ : ℕ → ℚ) (id points : ℕ) (s : GameState),
      (handleCollect now ρ id points s).score = s.score + points ∧
      (if (s.score + points) / 200 > s.score / 200 then
        (handleCollect now ρ id points s).level = s.level + 1 ∧
        (handleCollect now ρ id points s).orbs =
          s.orbs.filter (fun o => decide (o.id ≠ id)) ++ generateOrbs now ρ s.rng 3 ∧
        (handleCollect now ρ id points s).orbs.length =
          (s.orbs.filter (fun o => decide (o.id ≠ id))).length + 3 ∧
        (handleCollect now ρ id points s).obstacles =
          s.obstacles ++ generateObstacles now ρ (s.rng + 15) 2 ∧
        (handleCollect now ρ id points s).obstacles.length = s.obstacles.length + 2
      else
        (handleCollect now ρ id points s).level = s.level ∧
        (handleCollect now ρ id points s).orbs =
          s.orbs.filter (fun o => decide (o.id ≠ id)) ∧
        (handleCollect now ρ id points s).obstacles = s.obstacles) ∧
      (handleCollect now ρ id points s).level ≤ s.level + 1 := by
  intro now ρ id points s
  by_cases h : (s.score + points) / 200 > s.score / 200
  · refine ⟨rfl, ?_, ?_⟩
    · rw [if_pos h]
      refine ⟨?_, ?_, ?_, ?_, ?_⟩ <;>
        simp [handleCollect, h, generateOrbs_length, generateObstacles_length]
    · simp [handleCollect, h]
  · refine ⟨rfl, ?_, ?_⟩
    · rw [if_neg h]
      refine ⟨?_, ?_, ?_⟩ <;> simp [handleCollect, h]
    · simp [handleCollect, h]

/-- C7: every Collect event appends a replenishment due 500ms later to
the pending-timer queue, and when a replenishment fires it appends
exactly one freshly generated orb to whatever the then-current live orb
set is, unconditionally — for a state in any phase, including gameover
and freshly restarted sessions. -/
theorem C7_replenishment :
    ∀ (now : ℕ) (ρ : ℕ → ℚ) (id points : ℕ) (s : GameState),
      (handleCollect now ρ id points s).pending = s.pending ++ [now + 500] ∧
      ∀ (now2 : ℕ) (t : GameState),
        (fireReplenishment now2 ρ t).orbs = t.orbs ++ generateOrbs now2 ρ t.rng 1 ∧
        (fireReplenishment now2 ρ t).orbs.length = t.orbs.length + 1 ∧
        (fireReplenishment now2 ρ t).phase = t.phase ∧
        (fireReplenishment now2 ρ t).score = t.score := by
  intro now ρ id points s
  refine ⟨rfl, ?_⟩
  intro now2 t
  refine ⟨rfl, ?_, rfl, rfl⟩
  simp [fireReplenishment, generateOrbs_length]

/-- The ids of a generateOrbs call are now + 0, …, now + (count-1). -/
theorem generateOrbs_ids (now : ℕ) (ρ : ℕ → ℚ) (k count : ℕ) :
    (generateOrbs now ρ k count).map (fun o => o.id) =
      (List.range count).map (fun i => now + i) := by
  simp only [generateOrbs, List.map_map]
  rfl

/-- The ids of a generateObstacles call are now + 1000 + 0, …. -/
theorem generateObstacles_ids (now : ℕ) (ρ : ℕ → ℚ) (k count : ℕ) :
    (generateObstacles now ρ k count).map (fun b => b.id) =
      (List.range count).map (fun i => now + i + 1000) := by
  simp only [generateObstacles, List.map_map]
  rfl

/-- C2 counterexample: two replenishments firing at the same
Date.now() value (100) in one session produce two orbs with the same
id, so ids are reused across calls — the claim's cross-call
distinctness fails. -/
theorem C2_counterexample :
    ¬ ((fireReplenishment 100 halfStream (fireReplenishment 100 halfStream
        (startGame 0 halfStream initialState))).orbs.map (fun o => o.id)).Nodup := by
  decide

/-- C2 amended: each generator call returns exactly count entities
whose ids are pairwise distinct within that call; ids across two orb
calls are distinct only under a separation condition on the Date.now()
values (now₁ + count₁ ≤ now₂); calls sharing a timestamp reuse ids. -/
theorem C2_amended_freshness :
    ∀ (now : ℕ) (ρ : ℕ → ℚ) (k count : ℕ),
      (generateOrbs now ρ k count).length = count ∧
      ((generateOrbs now ρ k count).map (fun o => o.id)).Nodup ∧
      (generateObstacles now ρ k count).length = count ∧
      ((generateObstacles now ρ k count).map (fun b => b.id)).Nodup ∧
      (∀ (now2 k2 count2 : ℕ) (ρ2 : ℕ → ℚ), now + count ≤ now2 →
        ∀ a ∈ (generateOrbs now ρ k count).map (fun o => o.id),
          a ∉ (generateOrbs now2 ρ2 k2 count2).map (fun o => o.id)) := by
  intro now ρ k count
  refine ⟨generateOrbs_length now ρ k count, ?_, generateObstacles_length now ρ k count, ?_, ?_⟩
  · rw [generateOrbs_ids]
    exact List.Nodup.map (fun a b h => by omega) (List.nodup_range count)
  · rw [generateObstacles_ids]
    exact List.Nodup.map (fun a b h => by omega) (List.nodup_range count)
  · intro now2 k2 count2 ρ2 hsep a ha hb
    rw [generateOrbs_ids] at ha hb
    simp only [List.mem_map, List.mem_range] at ha hb
    obtain ⟨i, hi, rfl⟩ := ha
    obtain ⟨j, hj, hij⟩ := hb
    omega

/-- Witness for C2 amended at concrete calls: generateOrbs 0 … 1 has
one orb, and its id 0 does not occur in a call stamped 100. -/
theorem C2_amended_freshness_witness :
    (generateOrbs 0 halfStream 0 1).length = 1 ∧
    (0:ℕ) ∉ (generateOrbs 100 halfStream 0 1).map (fun o => o.id) := by
  refine ⟨(C2_amended_freshness 0 halfStream 0 1).1, ?_⟩
  exact (C2_amended_freshness 0 halfStream 0 1).2.2.2.2 100 0 1 halfStream
    (by norm_num) 0 (by decide)

/-- The orb pass of handlePositionChange: walk the live orbs in order;
an orb whose id is not yet in the collected set and whose distance to
the player is < 0.8 is added to the collected set and emits a
Collect(id, points) event. Returns the event list and the updated set. -/
def collectLoop (pos : Vec3) : List Orb → Finset ℕ → List (ℕ × ℕ) × Finset ℕ
  | [], c => ([], c)
  | o :: rest, c =>
    if o.id ∉ c ∧ distSq pos o.position < 16/25 then
      let r := collectLoop pos rest (insert o.id c)
      ((o.id, o.points) :: r.1, r.2)
    else
      collectLoop pos rest c

/-- The obstacle pass of handlePositionChange: one Hit event per live
obstacle within distance 1.2 of the same player-position sample. -/
def hitsInFrame (pos : Vec3) (s : GameState) : ℕ :=
  (s.obstacles.filter (fun b => decide (distSq pos b.position < 36/25))).length

/-- Collect events emitted in one frame. -/
def frameCollects (pos : Vec3) (s : GameState) : List (ℕ × ℕ) :=
  (collectLoop pos s.orbs s.collectedIds).1

/-- Events the collision evaluator can emit. -/
inductive GameEvent where
  | collect (id points : ℕ)
  | hit
deriving DecidableEq

/-- All events emitted in one frame, in source order (orb pass before
obstacle pass); nothing is emitted unless the phase is playing
(the gameActive guard). -/
def frameEvents (pos : Vec3) (s : GameState) : List GameEvent :=
  if s.phase = Phase.playing then
    (frameCollects pos s).map (fun e => GameEvent.collect e.1 e.2) ++
      List.replicate (hitsInFrame pos s) GameEvent.hit
  else []

/-- One presentation frame: if the phase is playing, run the orb pass
(updating the collected set and handling each Collect with the state
machine), then apply handleHit once per in-range obstacle. All
handlers in the frame close over the frame-start score. -/
def frame (now : ℕ) (ρ : ℕ → ℚ) (pos : Vec3) (s : GameState) : GameState :=
  if s.phase = Phase.playing then
    let capturedScore := s.score
    let r := collectLoop pos s.orbs s.collectedIds
    let s1 := { s with collectedIds := r.2 }
    let s2 := r.1.foldl (fun st e => handleCollect now ρ e.1 e.2 st) s1
    (handleHit capturedScore)^[hitsInFrame pos s] s2
  else s

/-- The orb pass only grows the collected set. -/
theorem collectLoop_subset (pos : Vec3) :
    ∀ (l : List Orb) (c : Finset ℕ), c ⊆ (collectLoop pos l c).2 := by
  intro l
  induction l with
  | nil => intro c; exact Finset.Subset.refl c
  | cons o rest ih =>
    intro c
    by_cases h : o.id ∉ c ∧ distSq pos o.position < 16/25
    · simp only [collectLoop, if_pos h]
      exact (Finset.subset_insert o.id c).trans (ih (insert o.id c))
    · simp only [collectLoop, if_neg h]
      exact ih c

/-- An id already in the collected set is never among the ids the orb
pass emits. -/
theorem collectLoop_fst_not_mem (pos : Vec3) :
    ∀ (l : List Orb) (c : Finset ℕ) (i : ℕ), i ∈ c →
      i ∉ (collectLoop pos l c).1.map (fun e => e.1) := by
  intro l
  induction l with
  | nil => intro c i _ h; simp [collectLoop] at h
  | cons o rest ih =>
    intro c i hi
    by_cases h : o.id ∉ c ∧ distSq pos o.position < 16/25
    · simp only [collectLoop, if_pos h, List.map_cons, List.mem_cons]
      rintro (rfl | hmem)
      · exact h.1 hi
      · exact ih (insert o.id c) i (Finset.mem_insert_of_mem hi) hmem
    · simp only [collectLoop, if_neg h]
      exact ih c i hi

/-- If the orb pass emits nothing, it leaves the collected set alone. -/
theorem collectLoop_snd_of_fst_nil (pos : Vec3) :
    ∀ (l : List Orb) (c : Finset ℕ), (collectLoop pos l c).1 = [] →
      (collectLoop pos l c).2 = c := by
  intro l
  induction l with
  | nil => intro c _; rfl
  | cons o rest ih =>
    intro c h
    by_cases hc : o.id ∉ c ∧ distSq pos o.position < 16/25
    · simp only [collectLoop, if_pos hc] at h
      exact (List.cons_ne_nil _ _ h).elim
    · simp only [collectLoop, if_neg hc] at h ⊢
      exact ih c h

/-- If no live orb is within collection range, the orb pass is a
complete no-op. -/
theorem collectLoop_of_far (pos : Vec3) :
    ∀ (l : List Orb) (c : Finset ℕ),
      (∀ o ∈ l, ¬ distSq pos o.position < 16/25) →
      collectLoop pos l c = ([], c) := by
  intro l
  induction l with
  | nil => intro c _; rfl
  | cons o rest ih =>
    intro c h
    have hfar := h o (List.mem_cons_self o rest)
    have hc : ¬ (o.id ∉ c ∧ distSq pos o.position < 16/25) := fun hand => hfar hand.2
    simp only [collectLoop, if_neg hc]
    exact ih c (fun x hx => h x (List.mem_cons_of_mem o hx))

/-- handleCollect leaves phase, lives, high score and the collected set
untouched (those live in other state cells). -/
theorem handleCollect_fields (now : ℕ) (ρ : ℕ → ℚ) (id points : ℕ) (s : GameState) :
    (handleCollect now ρ id points s).phase = s.phase ∧
    (handleCollect now ρ id points s).lives = s.lives ∧
    (handleCollect now ρ id points s).highScore = s.highScore ∧
    (handleCollect now ρ id points s).collectedIds = s.collectedIds :=
  ⟨rfl, rfl, rfl, rfl⟩

/-- Folding handleCollect over a batch of Collect events leaves phase,
lives, high score and the collected set untouched. -/
theorem foldl_handleCollect_fields (now : ℕ) (ρ : ℕ → ℚ) :
    ∀ (l : List (ℕ × ℕ)) (t : GameState),
      (l.foldl (fun st e => handleCollect now ρ e.1 e.2 st) t).phase = t.phase ∧
      (l.foldl (fun st e => handleCollect now ρ e.1 e.2 st) t).lives = t.lives ∧
      (l.foldl (fun st e => handleCollect now ρ e.1 e.2 st) t).highScore = t.highScore ∧
      (l.foldl (fun st e => handleCollect now ρ e.1 e.2 st) t).collectedIds = t.collectedIds := by
  intro l
  induction l with
  | nil => intro t; exact ⟨rfl, rfl, rfl, rfl⟩
  | cons e rest ih => intro t; exact ih (handleCollect now ρ e.1 e.2 t)

/-- handleCollect never removes an obstacle. -/
theorem handleCollect_obstacles_mem (now : ℕ) (ρ : ℕ → ℚ) (id points : ℕ)
    (s : GameState) {b : Obstacle} (hb : b ∈ s.obstacles) :
    b ∈ (handleCollect now ρ id points s).obstacles := by
  simp only [handleCollect]
  exact List.mem_append_left _ hb

/-- Folding handleCollect never removes an obstacle. -/
theorem foldl_handleCollect_obstacles_mem (now : ℕ) (ρ : ℕ → ℚ) :
    ∀ (l : List (ℕ × ℕ)) (t : GameState) {b : Obstacle}, b ∈ t.obstacles →
      b ∈ (l.foldl (fun st e => handleCollect now ρ e.1 e.2 st) t).obstacles := by
  intro l
  induction l with
  | nil => intro t b hb; exact hb
  | cons e rest ih =>
    intro t b hb
    exact ih (handleCollect now ρ e.1 e.2 t) (handleCollect_obstacles_mem now ρ e.1 e.2 t hb)

/-- Everything handleHit leaves alone: score, entity sets, collected
set, pending timers and level. -/
theorem handleHit_fields (c : ℕ) (s : GameState) :
    (handleHit c s).score = s.score ∧
    (handleHit c s).orbs = s.orbs ∧
    (handleHit c s).obstacles = s.obstacles ∧
    (handleHit c s).collectedIds = s.collectedIds ∧
    (handleHit c s).pending = s.pending ∧
    (handleHit c s).level = s.level := by
  by_cases h : s.lives - 1 ≤ 0 <;> simp [handleHit, h]

/-- Full description of iterating handleHit k times: lives drop by k
with no floor; the phase flips to gameover exactly when at least one
hit lands with lives already at or below the count; the high score is
raised to the captured score exactly in that case; nothing else moves. -/
theorem handleHit_iterate (c : ℕ) :
    ∀ (k : ℕ) (t : GameState),
      ((handleHit c)^[k] t).lives = t.lives - k ∧
      ((handleHit c)^[k] t).phase =
        (if 1 ≤ k ∧ t.lives ≤ k then Phase.gameover else t.phase) ∧
      ((handleHit c)^[k] t).highScore =
        (if 1 ≤ k ∧ t.lives ≤ k then max t.highScore c else t.highScore) ∧
      ((handleHit c)^[k] t).score = t.score ∧
      ((handleHit c)^[k] t).orbs = t.orbs ∧
      ((handleHit c)^[k] t).obstacles = t.obstacles ∧
      ((handleHit c)^[k] t).collectedIds = t.collectedIds ∧
      ((handleHit c)^[k] t).pending = t.pending := by
  intro k
  induction k with
  | zero =>
    intro t
    refine ⟨by simp, ?_, ?_, rfl, rfl, rfl, rfl, rfl⟩ <;> simp
  | succ k ih =>
    intro t
    rw [Function.iterate_succ_apply]
    obtain ⟨hl, hp, hh, hs, ho, hb, hc2, hpd⟩ := ih (handleHit c t)
    obtain ⟨fs, fo, fb, fc, fpd, _⟩ := handleHit_fields c t
    have hlv : (handleHit c t).lives = t.lives - 1 := by
      by_cases h : t.lives - 1 ≤ 0 <;> simp [handleHit, h]
    have hph : (handleHit c t).phase =
        (if t.lives - 1 ≤ 0 then Phase.gameover else t.phase) := by
      by_cases h : t.lives - 1 ≤ 0 <;> simp [handleHit, h]
    have hhs : (handleHit c t).highScore =
        (if t.lives - 1 ≤ 0 then max t.highScore c else t.highScore) := by
      by_cases h : t.lives - 1 ≤ 0 <;> simp [handleHit, h]
    rw [hlv] at hl
    rw [hlv, hph] at hp
    rw [hlv, hhs] at hh
    rw [fs] at hs
    rw [fo] at ho
    rw [fb] at hb
    rw [fc] at hc2
    rw [fpd] at hpd
    refine ⟨?_, ?_, ?_, hs, ho, hb, hc2, hpd⟩
    · rw [hl]; push_cast; ring
    · rw [hp]
      split_ifs <;> first | rfl | omega
    · rw [hh]
      split_ifs <;> first | rfl | omega

theorem handleHit_iterate_obstacles (c k : ℕ) (t : GameState) :
    ((handleHit c)^[k] t).obstacles = t.obstacles :=
  (handleHit_iterate c k t).2.2.2.2.2.1

theorem handleHit_iterate_collectedIds (c k : ℕ) (t : GameState) :
    ((handleHit c)^[k] t).collectedIds = t.collectedIds :=
  (handleHit_iterate c k t).2.2.2.2.2.2.1

/-- Unfolding of frame in the playing phase. -/
theorem frame_playing (now : ℕ) (ρ : ℕ → ℚ) (pos : Vec3) (s : GameState)
    (hp : s.phase = Phase.playing) :
    frame now ρ pos s = (handleHit s.score)^[hitsInFrame pos s]
      ((collectLoop pos s.orbs s.collectedIds).1.foldl
        (fun st e => handleCollect now ρ e.1 e.2 st)
        { s with collectedIds := (collectLoop pos s.orbs s.collectedIds).2 }) := by
  simp only [frame, if_pos hp]

/-- C5: an orb whose id is already in the collected set never emits a
Collect event (however close it is), and a frame in which nothing is
emitted — in particular one whose only in-range orbs are already
collected — changes nothing at all (a no-op, not an error). -/
theorem C5_already_collected_noop :
    ∀ (now : ℕ) (ρ : ℕ → ℚ) (pos : Vec3) (s : GameState) (i : ℕ),
      (i ∈ s.collectedIds → i ∉ (frameCollects pos s).map (fun e => e.1)) ∧
      (frameCollects pos s = [] ∧ hitsInFrame pos s = 0 → frame now ρ pos s = s) := by
  intro now ρ pos s i
  constructor
  · intro hi
    exact collectLoop_fst_not_mem pos s.orbs s.collectedIds i hi
  · rintro ⟨h1, h2⟩
    by_cases hp : s.phase = Phase.playing
    · have hsnd := collectLoop_snd_of_fst_nil pos s.orbs s.collectedIds h1
      rw [frame_playing now ρ pos s hp, h2]
      rw [frameCollects] at h1
      rw [h1, hsnd]
      rfl
    · simp [frame, hp]

/-- A concrete state for the C5 witness: playing, one live orb at the
origin whose id 0 is already in the collected set. -/
def c5State : GameState :=
  { phase := .playing
    score := 0
    highScore := 0
    orbs := [⟨0, ⟨0, 0, 0⟩, "#00ffff", 35⟩]
    obstacles := []
    lives := 3
    level := 1
    collectedIds := {0}
    pending := []
    rng := 0 }

/-- Witness for C5: in c5State the in-range orb with collected id 0
emits nothing and the frame is the identity. -/
theorem C5_already_collected_noop_witness :
    (0 ∉ (frameCollects ⟨0, 0, 0⟩ c5State).map (fun e => e.1)) ∧
    frame 7 halfStream ⟨0, 0, 0⟩ c5State = c5State := by
  have hmem : (0:ℕ) ∈ c5State.collectedIds := by simp [c5State]
  have hnil : frameCollects ⟨0, 0, 0⟩ c5State = [] := by
    simp [frameCollects, c5State, collectLoop]
  have hhit : hitsInFrame ⟨0, 0, 0⟩ c5State = 0 := rfl
  exact ⟨(C5_already_collected_noop 7 halfStream ⟨0, 0, 0⟩ c5State 0).1 hmem,
    (C5_already_collected_noop 7 halfStream ⟨0, 0, 0⟩ c5State 0).2 ⟨hnil, hhit⟩⟩

/-- C8: in a playing frame the number of Hit events equals the number
of live obstacles within distance 1.2 of the single player-position
sample (no debounce, no early exit), and no obstacle is ever removed
by a frame — so an obstacle still in range emits again next frame. -/
theorem C8_hit_per_obstacle_in_range :
    ∀ (now : ℕ) (ρ : ℕ → ℚ) (pos : Vec3) (s : GameState),
      s.phase = Phase.playing →
      hitsInFrame pos s =
        (s.obstacles.filter (fun b => decide (distSq pos b.position < 36/25))).length ∧
      (frameEvents pos s).count GameEvent.hit = hitsInFrame pos s ∧
      ∀ b ∈ s.obstacles, b ∈ (frame now ρ pos s).obstacles := by
  intro now ρ pos s hp
  refine ⟨rfl, ?_, ?_⟩
  · simp only [frameEvents, if_pos hp, List.count_append]
    have hmap : (List.map (fun e => GameEvent.collect e.1 e.2)
        (frameCollects pos s)).count GameEvent.hit = 0 := by
      rw [List.count_eq_zero]
      simp
    rw [hmap, List.count_replicate_self]
    omega
  · intro b hb
    rw [frame_playing now ρ pos s hp, handleHit_iterate_obstacles]
    exact foldl_handleCollect_obstacles_mem now ρ _ _ hb

/-- A concrete session start used by several witnesses: startGame at
Date.now() = 0 with the all-halves stream puts all 10 orbs at the
origin and all 5 obstacles at (0, 0, -20). -/
def cexStart : GameState := startGame 0 halfStream initialState

/-- A player-position sample sitting right on the obstacle cluster of
cexStart. -/
def vPos : Vec3 := ⟨0, 0, -20⟩

theorem cexStart_obstacles : cexStart.obstacles = generateObstacles 0 halfStream 50 5 := rfl

/-- Witness for C8 at the concrete session cexStart. -/
theorem C8_hit_per_obstacle_in_range_witness :
    (frameEvents vPos cexStart).count GameEvent.hit = hitsInFrame vPos cexStart ∧
    mkObstacle 0 halfStream 50 0 ∈ (frame 0 halfStream vPos cexStart).obstacles := by
  refine ⟨(C8_hit_per_obstacle_in_range 0 halfStream vPos cexStart rfl).2.1, ?_⟩
  refine (C8_hit_per_obstacle_in_range 0 halfStream vPos cexStart rfl).2.2 _ ?_
  rw [cexStart_obstacles]
  exact mem_generateObstacles.mpr ⟨0, by norm_num, by norm_num⟩

/-- C10: no operation of the scene ever clears the collected-id set:
startGame, handleCollect and the replenishment timer leave it exactly
unchanged, and a frame only grows it. -/
theorem C10_collected_never_cleared :
    ∀ (now : ℕ) (ρ : ℕ → ℚ) (pos : Vec3) (id points : ℕ) (s : GameState),
      (startGame now ρ s).collectedIds = s.collectedIds ∧
      (fireReplenishment now ρ s).collectedIds = s.collectedIds ∧
      (handleCollect now ρ id points s).collectedIds = s.collectedIds ∧
      s.collectedIds ⊆ (frame now ρ pos s).collectedIds := by
  intro now ρ pos id points s
  refine ⟨rfl, rfl, rfl, ?_⟩
  by_cases hp : s.phase = Phase.playing
  · rw [frame_playing now ρ pos s hp, handleHit_iterate_collectedIds,
      (foldl_handleCollect_fields now ρ _ _).2.2.2]
    exact collectLoop_subset pos s.orbs s.collectedIds
  · simp [frame, hp]

/-- When no live orb is in collection range, a playing frame is just
the obstacle pass. -/
theorem frame_of_far (now : ℕ) (ρ : ℕ → ℚ) (pos : Vec3) (s : GameState)
    (hp : s.phase = Phase.playing)
    (hfar : ∀ o ∈ s.orbs, ¬ distSq pos o.position < 16/25) :
    frame now ρ pos s = (handleHit s.score)^[hitsInFrame pos s] s := by
  rw [frame_playing now ρ pos s hp, collectLoop_of_far pos s.orbs s.collectedIds hfar]
  rfl

/-- When every live obstacle is in range, the frame emits one Hit per
live obstacle. -/
theorem hitsInFrame_of_all_in_range (pos : Vec3) (s : GameState)
    (h : ∀ b ∈ s.obstacles, distSq pos b.position < 36/25) :
    hitsInFrame pos s = s.obstacles.length := by
  unfold hitsInFrame
  rw [List.filter_eq_self.mpr]
  intro b hb
  simp only [decide_eq_true_eq]
  exact h b hb

theorem cexStart_orbs : cexStart.orbs = generateOrbs 0 halfStream 0 10 := rfl

/-- In cexStart all orbs sit at the origin, far from vPos. -/
theorem cex_orbs_far : ∀ o ∈ cexStart.orbs, ¬ distSq vPos o.position < 16/25 := by
  intro o ho
  rw [cexStart_orbs] at ho
  obtain ⟨i, _, rfl⟩ := mem_generateOrbs.mp ho
  norm_num [mkOrb, randomPosition, halfStream, distSq, vPos]

/-- In cexStart all 5 obstacles sit exactly at vPos. -/
theorem cex_hits : hitsInFrame vPos cexStart = 5 := by
  rw [hitsInFrame_of_all_in_range]
  · rw [cexStart_obstacles, generateObstacles_length]
  · intro b hb
    rw [cexStart_obstacles] at hb
    obtain ⟨i, _, rfl⟩ := mem_generateObstacles.mp hb
    norm_num [mkObstacle, halfStream, distSq, vPos]

/-- The concrete fatal frame reduces to five handleHit applications. -/
theorem cex_frame : frame 0 halfStream vPos cexStart = (handleHit 0)^[5] cexStart := by
  rw [frame_of_far 0 halfStream vPos cexStart rfl cex_orbs_far, cex_hits]
  rfl

/-- C1 counterexample: from a freshly started session (phase playing,
lives 3), one frame at a position within range of all 5 obstacles
delivers 5 Hit events — all emitted while Playing — after which lives
is -2, not max(0, 3 - 5) = 0, and it was never exactly 0 while the
transition to GameOver fired. -/
theorem C1_counterexample :
    cexStart.phase = Phase.playing ∧
    cexStart.lives = 3 ∧
    hitsInFrame vPos cexStart = 5 ∧
    (frame 0 halfStream vPos cexStart).lives = -2 ∧
    (frame 0 halfStream vPos cexStart).phase = Phase.gameover := by
  have hl : cexStart.lives = 3 := rfl
  refine ⟨rfl, rfl, cex_hits, ?_, ?_⟩
  · rw [cex_frame, (handleHit_iterate 0 5 cexStart).1, hl]
    decide
  · rw [cex_frame, (handleHit_iterate 0 5 cexStart).2.1, hl]
    norm_num

/-- C1 amended: while Playing, each Hit event decrements lives by
exactly 1 with no floor at 0, so a frame with k in-range obstacles
drops lives by k (below 0 when k exceeds the remaining lives); the
transition to GameOver fires on the frame in which lives first reaches
0 or less, i.e. exactly when the hit count reaches the remaining
lives. -/
theorem C1_amended_lives :
    ∀ (now : ℕ) (ρ : ℕ → ℚ) (pos : Vec3) (s : GameState),
      s.phase = Phase.playing → 1 ≤ s.lives →
      (frame now ρ pos s).lives = s.lives - hitsInFrame pos s ∧
      ((frame now ρ pos s).phase = Phase.gameover ↔
        s.lives ≤ hitsInFrame pos s) := by
  intro now ρ pos s hp hl
  rw [frame_playing now ρ pos s hp]
  have hfields := foldl_handleCollect_fields now ρ ((collectLoop pos s.orbs s.collectedIds).1)
      { s with collectedIds := (collectLoop pos s.orbs s.collectedIds).2 }
  obtain ⟨il, ip, _, _, _, _, _, _⟩ :=
    handleHit_iterate s.score (hitsInFrame pos s)
      ((collectLoop pos s.orbs s.collectedIds).1.foldl
        (fun st e => handleCollect now ρ e.1 e.2 st)
        { s with collectedIds := (collectLoop pos s.orbs s.collectedIds).2 })
  rw [hfields.2.1] at il ip
  rw [hfields.1] at ip
  constructor
  · rw [il]
  · rw [ip]
    show (if 1 ≤ hitsInFrame pos s ∧ s.lives ≤ (hitsInFrame pos s : ℤ) then Phase.gameover
      else s.phase) = Phase.gameover ↔ s.lives ≤ (hitsInFrame pos s : ℤ)
    split_ifs with hc
    · exact ⟨fun _ => hc.2, fun _ => rfl⟩
    · rw [hp]
      refine ⟨fun h => absurd h (by decide), fun hle => absurd ⟨by omega, hle⟩ hc⟩

/-- Witness for C1 amended at the concrete fatal frame of cexStart. -/
theorem C1_amended_lives_witness :
    (frame 0 halfStream vPos cexStart).lives =
      cexStart.lives - hitsInFrame vPos cexStart ∧
    ((frame 0 halfStream vPos cexStart).phase = Phase.gameover ↔
      cexStart.lives ≤ hitsInFrame vPos cexStart) :=
  C1_amended_lives 0 halfStream vPos cexStart rfl (by decide)

/-- All orbs the generators can produce have z in [-15/2, 15/2). -/
def OrbZOk (o : Orb) : Prop := -(15/2) ≤ o.position.z ∧ o.position.z < 15/2

/-- All obstacles the generators can produce have z ≤ -10. -/
def ObsZOk (b : Obstacle) : Prop := b.position.z ≤ -10

/-- Spawn-depth separation: live orbs sit in the shallow slab, live
obstacles in the deep slab. The two slabs are 2.5 apart, more than the
0.8 + 1.2 sum of the two collision radii. -/
def ZSep (s : GameState) : Prop :=
  (∀ o ∈ s.orbs, OrbZOk o) ∧ (∀ b ∈ s.obstacles, ObsZOk b)

theorem generateOrbs_zOk {ρ : ℕ → ℚ} (hρ : ValidStream ρ) (now k count : ℕ) :
    ∀ o ∈ generateOrbs now ρ k count, OrbZOk o := by
  intro o ho
  obtain ⟨i, _, rfl⟩ := mem_generateOrbs.mp ho
  exact mkOrb_z_bounds hρ now _ i

theorem generateObstacles_zOk {ρ : ℕ → ℚ} (hρ : ValidStream ρ) (now k count : ℕ) :
    ∀ b ∈ generateObstacles now ρ k count, ObsZOk b := by
  intro b hb
  obtain ⟨i, _, rfl⟩ := mem_generateObstacles.mp hb
  exact mkObstacle_z_bound hρ now _ i

theorem handleCollect_zSep {ρ : ℕ → ℚ} (hρ : ValidStream ρ) (now id points : ℕ)
    (s : GameState) (h : ZSep s) : ZSep (handleCollect now ρ id points s) := by
  constructor
  · intro o ho
    simp only [handleCollect] at ho
    rcases List.mem_append.mp ho with h1 | h2
    · exact h.1 o (List.mem_filter.mp h1).1
    · by_cases hl : (s.score + points) / 200 > s.score / 200
      · rw [if_pos hl] at h2
        exact generateOrbs_zOk hρ now s.rng 3 o h2
      · rw [if_neg hl] at h2
        exact absurd h2 (List.not_mem_nil o)
  · intro b hb
    simp only [handleCollect] at hb
    rcases List.mem_append.mp hb with h1 | h2
    · exact h.2 b h1
    · by_cases hl : (s.score + points) / 200 > s.score / 200
      · rw [if_pos hl] at h2
        exact generateObstacles_zOk hρ now (s.rng + 15) 2 b h2
      · rw [if_neg hl] at h2
        exact absurd h2 (List.not_mem_nil b)

theorem foldl_handleCollect_zSep {ρ : ℕ → ℚ} (hρ : ValidStream ρ) (now : ℕ) :
    ∀ (l : List (ℕ × ℕ)) (t : GameState), ZSep t →
      ZSep (l.foldl (fun st e => handleCollect now ρ e.1 e.2 st) t) := by
  intro l
  induction l with
  | nil => intro t h; exact h
  | cons e rest ih =>
    intro t h
    exact ih (handleCollect now ρ e.1 e.2 t) (handleCollect_zSep hρ now e.1 e.2 t h)

theorem startGame_zSep {ρ : ℕ → ℚ} (hρ : ValidStream ρ) (now : ℕ) (s : GameState) :
    ZSep (startGame now ρ s) :=
  ⟨generateOrbs_zOk hρ now s.rng 10, generateObstacles_zOk hρ now (s.rng + 50) 5⟩

theorem fireReplenishment_zSep {ρ : ℕ → ℚ} (hρ : ValidStream ρ) (now : ℕ)
    (s : GameState) (h : ZSep s) : ZSep (fireReplenishment now ρ s) := by
  refine ⟨?_, h.2⟩
  intro o ho
  rcases List.mem_append.mp ho with h1 | h2
  · exact h.1 o h1
  · exact generateOrbs_zOk hρ now s.rng 1 o h2

theorem frame_zSep {ρ : ℕ → ℚ} (hρ : ValidStream ρ) (now : ℕ) (pos : Vec3)
    (s : GameState) (h : ZSep s) : ZSep (frame now ρ pos s) := by
  by_cases hp : s.phase = Phase.playing
  · rw [frame_playing now ρ pos s hp]
    obtain ⟨_, _, _, _, io, ib, _, _⟩ :=
      handleHit_iterate s.score (hitsInFrame pos s)
        ((collectLoop pos s.orbs s.collectedIds).1.foldl
          (fun st e => handleCollect now ρ e.1 e.2 st)
          { s with collectedIds := (collectLoop pos s.orbs s.collectedIds).2 })
    have hsep1 : ZSep { s with collectedIds := (collectLoop pos s.orbs s.collectedIds).2 } := h
    have hsep2 := foldl_handleCollect_zSep hρ now
      (collectLoop pos s.orbs s.collectedIds).1
      { s with collectedIds := (collectLoop pos s.orbs s.collectedIds).2 } hsep1
    constructor
    · rw [io]
      exact hsep2.1
    · rw [ib]
      exact hsep2.2
  · simp only [frame, if_neg hp]
    exact h

/-- The states a scene can reach: the initial mount, then any
interleaving of start presses, presentation frames and replenishment
timer firings, all drawing from one ambient random stream. -/
inductive Reachable (ρ : ℕ → ℚ) : GameState → Prop where
  | init : Reachable ρ initialState
  | start (now : ℕ) {s : GameState} : Reachable ρ s → Reachable ρ (startGame now ρ s)
  | step (now : ℕ) (pos : Vec3) {s : GameState} : Reachable ρ s → Reachable ρ (frame now ρ pos s)
  | replenish (now : ℕ) {s : GameState} : Reachable ρ s → Reachable ρ (fireReplenishment now ρ s)

/-- Every reachable state satisfies the spawn-depth separation. -/
theorem reachable_zSep {ρ : ℕ → ℚ} (hρ : ValidStream ρ) :
    ∀ {s : GameState}, Reachable ρ s → ZSep s := by
  intro s h
  induction h with
  | init =>
    exact ⟨fun o ho => absurd ho (List.not_mem_nil o),
           fun b hb => absurd hb (List.not_mem_nil b)⟩
  | start now _ _ => exact startGame_zSep hρ now _
  | step now pos _ ih => exact frame_zSep hρ now pos _ ih
  | replenish now _ ih => exact fireReplenishment_zSep hρ now _ ih

/-- If some obstacle is within hit range of the player sample, then no
orb in the shallow slab can be within collection range of the same
sample: the slabs are 2.5 apart but the radii only sum to 2.0. -/
theorem orb_far_of_obstacle_near {pos : Vec3} {b : Obstacle} {o : Orb}
    (hb : distSq pos b.position < 36/25) (hbz : ObsZOk b) (hoz : OrbZOk o) :
    ¬ distSq pos o.position < 16/25 := by
  intro hlt
  unfold distSq at hb hlt
  unfold ObsZOk at hbz
  obtain ⟨hoz1, _⟩ := hoz
  nlinarith [sq_nonneg (pos.x - b.position.x), sq_nonneg (pos.y - b.position.y),
    sq_nonneg (pos.x - o.position.x), sq_nonneg (pos.y - o.position.y),
    sq_nonneg (pos.z - b.position.z - 6/5), sq_nonneg (o.position.z - pos.z - 13/10)]

/-- C3: for every reachable playing state whose next frame ends the
session, the high score right after the transition equals
max(previous high score, S) where S is the session score at GameOver —
and S equals the frame-start score, because spawn-depth separation
makes a Collect impossible in any frame that also contains a Hit. -/
theorem C3_highscore_update :
    ∀ (ρ : ℕ → ℚ) (now : ℕ) (pos : Vec3) (s : GameState),
      ValidStream ρ → Reachable ρ s → s.phase = Phase.playing →
      (frame now ρ pos s).phase = Phase.gameover →
      (frame now ρ pos s).score = s.score ∧
      (frame now ρ pos s).highScore = max s.highScore ((frame now ρ pos s).score) := by
  intro ρ now pos s hρ hreach hp hgo
  have hsep := reachable_zSep hρ hreach
  by_cases hk : hitsInFrame pos s = 0
  · exfalso
    rw [frame_playing now ρ pos s hp, hk] at hgo
    simp only [Function.iterate_zero, id_eq] at hgo
    rw [(foldl_handleCollect_fields now ρ _ _).1] at hgo
    exact absurd (hp.symm.trans hgo) (by decide)
  · have hex : ∃ b ∈ s.obstacles, distSq pos b.position < 36/25 := by
      by_contra hno
      push_neg at hno
      apply hk
      unfold hitsInFrame
      rw [List.length_eq_zero, List.filter_eq_nil_iff]
      intro b hb
      simp only [decide_eq_true_eq]
      exact not_lt.mpr (hno b hb)
    obtain ⟨b, hbmem, hbnear⟩ := hex
    have hfar : ∀ o ∈ s.orbs, ¬ distSq pos o.position < 16/25 :=
      fun o ho => orb_far_of_obstacle_near hbnear (hsep.2 b hbmem) (hsep.1 o ho)
    rw [frame_of_far now ρ pos s hp hfar] at hgo ⊢
    obtain ⟨_, ip, ih2, is2, _, _, _, _⟩ := handleHit_iterate s.score (hitsInFrame pos s) s
    rw [is2, ih2]
    refine ⟨rfl, ?_⟩
    rw [ip] at hgo
    by_cases hc : 1 ≤ hitsInFrame pos s ∧ s.lives ≤ (hitsInFrame pos s : ℤ)
    · rw [if_pos hc]
    · rw [if_neg hc] at hgo
      exact absurd (hp.symm.trans hgo) (by decide)

/-- Witness for C3 at the concrete fatal frame of the reachable state
cexStart. -/
theorem C3_highscore_update_witness :
    (frame 0 halfStream vPos cexStart).score = cexStart.score ∧
    (frame 0 halfStream vPos cexStart).highScore =
      max cexStart.highScore ((frame 0 halfStream vPos cexStart).score) := by
  have hgo : (frame 0 halfStream vPos cexStart).phase = Phase.gameover := by
    rw [cex_frame, (handleHit_iterate 0 5 cexStart).2.1]
    have hl : cexStart.lives = 3 := rfl
    rw [hl]
    norm_num
  exact C3_highscore_update halfStream 0 vPos cexStart halfStream_valid
    (Reachable.start 0 Reachable.init) rfl hgo

end App
